import Mathlib

/-!
Verification of the BubblePanel-WebUI repository against its
natural-language specification.

The development shallowly embeds the parts of the source that the claims
talk about:

* `Json`, `jsFalsy`, `lookupKey` : a small model of the JavaScript /
  PowerShell value domain used at the HTTP boundary.
* namespace `Api` : the frontend HTTP client `src/frontend/src/api.js`
  (readBody, httpError, getStatus, getPresets, uploadFile, runJob,
  pollJob).  Network transport is abstracted as the `HttpResp` the
  `fetch` promise resolved with; `JSON.parse` is abstracted as a
  function `p : String -> Option Json` where `none` means the parse
  threw (for example on the empty string).
* namespace `Uri` : the ECMAScript builtins `encodeURIComponent` and
  `decodeURIComponent` at the Unicode-scalar-value level, and
  `fileUrl` from api.js.
* namespace `Ui` : form state, presets, command preview, the RunCard
  summarization guard and the onRun handler from
  `src/frontend/src/App.jsx` and
  `src/frontend/src/components/RunCard.jsx`.
* namespace `Ps` : the PowerShell driver scripts
  (`Poll-Job` and the sync/async dispatch of
  `bubblepanel_test_v4.ps1` alias `src/unnamed/part_001`, and the
  inline poll loop of the full-OCR Netlify script in
  `src/unnamed/part_006`).
-/

/-- JSON value as handled by `JSON.parse` / `ConvertFrom-Json`.
Numbers are modelled as integers; the claims only ever inspect
zero-ness of a number (JavaScript falsiness). `null` doubles as the
JavaScript null. -/
inductive Json where
  | null
  | bool (b : Bool)
  | num (n : Int)
  | str (s : String)
  | arr (elems : List Json)
  | obj (fields : List (String × Json))

/-- JavaScript falsiness on parsed JSON values: null, false, 0 and the
empty string are falsy (NaN and undefined do not occur in this model). -/
def jsFalsy : Json → Bool
  | .null => true
  | .bool false => true
  | .num 0 => true
  | .str "" => true
  | _ => false

/-- JavaScript truthiness. -/
def jsTruthy (j : Json) : Bool := !jsFalsy j

/-- Is the value exactly the JavaScript null?  Used to model the
nullish-coalescing operator. -/
def Json.isNull : Json → Bool
  | .null => true
  | _ => false

/-- First-match association-list lookup; models property access
`o[key]` on a plain object built from an ordered field list. -/
def lookupKey {α : Type} : List (String × α) → String → Option α
  | [], _ => none
  | (k, v) :: rest, key => if k = key then some v else lookupKey rest key

/-- Property read `o.f` on a JSON value: `none` when the value is not
an object or lacks the field (JavaScript undefined). -/
def Json.objGet : Json → String → Option Json
  | .obj fields, key => lookupKey fields key
  | _, _ => none

namespace Api

/-- The settled state of a `fetch` response: `ok` is the 2xx flag,
`text` the raw body. -/
structure HttpResp where
  ok : Bool
  status : Nat
  statusText : String
  text : String

/-- The two error kinds constructed by api.js: `err.kind = "http"` and
`err.kind = "bad-json"`. -/
inductive ErrKind where
  | http
  | badJson
deriving DecidableEq

/-- The normalized error shape thrown by api.js. -/
structure ApiErr where
  kind : ErrKind
  message : String
  status : Nat := 0
  body : String := ""
deriving DecidableEq

/-- `readBody(res)` from api.js: reads the text and tries to parse it;
the catch clause turns a parse failure into a null `json` field.
`p` abstracts `JSON.parse` (`none` = the parse threw). -/
def readBody (p : String → Option Json) (r : HttpResp) : String × Json :=
  (r.text, (p r.text).getD .null)

/-- `httpError(res, bodyText)` from api.js. -/
def httpError (r : HttpResp) (bodyText : String) : ApiErr :=
  { kind := .http
    message := "HTTP " ++ toString r.status ++ " " ++ r.statusText
    status := r.status
    body := bodyText }

/-- The nullish-coalescing fallback `json ?? \x7b\x7d` used by
getStatus, getPresets, uploadFile and pollJob. -/
def orEmptyObj (j : Json) : Json :=
  if j.isNull then .obj [] else j

/-- `getStatus()` response handling from api.js. -/
def getStatus (p : String → Option Json) (r : HttpResp) : Except ApiErr Json :=
  let (text, json) := readBody p r
  if !r.ok then .error (httpError r text) else .ok (orEmptyObj json)

/-- `getPresets()` response handling from api.js. -/
def getPresets (p : String → Option Json) (r : HttpResp) : Except ApiErr Json :=
  let (text, json) := readBody p r
  if !r.ok then .error (httpError r text) else .ok (orEmptyObj json)

/-- `uploadFile(file)` response handling from api.js (the multipart
request construction is not response-relevant and is elided). -/
def uploadFile (p : String → Option Json) (r : HttpResp) : Except ApiErr Json :=
  let (text, json) := readBody p r
  if !r.ok then .error (httpError r text) else .ok (orEmptyObj json)

/-- `pollJob(jobId)` response handling from api.js. -/
def pollJob (p : String → Option Json) (r : HttpResp) : Except ApiErr Json :=
  let (text, json) := readBody p r
  if !r.ok then .error (httpError r text) else .ok (orEmptyObj json)

/-- `runJob(body)` response handling from api.js: non-2xx becomes an
http error; a falsy parsed body (in particular a body that failed to
parse) becomes the distinct bad-json error whose `body` field is
`text || "(empty)"`. -/
def runJob (p : String → Option Json) (r : HttpResp) : Except ApiErr Json :=
  let (text, json) := readBody p r
  if !r.ok then .error (httpError r text)
  else if jsFalsy json then
    .error { kind := .badJson
             message := "Invalid JSON from server"
             status := 0
             body := if text = "" then "(empty)" else text }
  else .ok json

/-- A concrete stand-in for `JSON.parse` restricted to inputs on which
the parse throws; used only to instantiate closed statements whose
hypotheses require the body not to be valid JSON (for example the empty
string, on which the real `JSON.parse` always throws). -/
def jsParseFail : String → Option Json := fun _ => none

end Api

namespace Ui

/-- The editable option bundle held by App (the shape of DEFAULT_FORM
in src/frontend/src/App.jsx). -/
structure Form where
  input : String
  out : String
  jsonl : String
  host : String
  page_summarize : Bool
  page_style : String
  engine : String
  ollama_text : String
  embed_model : String
  mlm_refiner : Bool
  recon_verbose : Bool
  save_crops : Bool
  all_ocr : Bool
  ocr_verbose : Bool
  no_ocr : Bool
deriving DecidableEq

/-- DEFAULT_FORM from App.jsx. -/
def defaultForm : Form where
  input := ".\\data\\chapter\\smoke_chapter\\page_0007.png"
  out := ".\\data\\outputs\\page_0007_web"
  jsonl := "panels.jsonl"
  host := "http://127.0.0.1:11434"
  page_summarize := true
  page_style := "paragraph"
  engine := "llm"
  ollama_text := "qwen2.5:7b-instruct"
  embed_model := "sentence-transformers/all-mpnet-base-v2"
  mlm_refiner := false
  recon_verbose := false
  save_crops := false
  all_ocr := false
  ocr_verbose := false
  no_ocr := false

/-- buildCommandPreview from App.jsx, before quoting and joining: the
`parts` array.  JavaScript truthiness of `f.ollama_text` is
non-emptiness of the string. -/
def buildCommandPreviewParts (f : Form) : List String :=
  ["python", "smoke_test.py", "--input", f.input, "--out", f.out, "--jsonl", f.jsonl]
  ++ (if f.page_summarize then
        ["--page-summarize", if f.page_style = "novel" then "--novel" else "--paragraph"]
      else [])
  ++ (if f.engine = "llm" then
        (if f.ollama_text ≠ "" then ["--ollama-text", f.ollama_text, "--host", f.host] else [])
      else
        ["--encoder", "--embed-model", f.embed_model]
        ++ (if f.mlm_refiner then ["--mlm-refiner"] else []))
  ++ (if f.recon_verbose then ["--recon-verbose"] else [])
  ++ (if f.save_crops then ["--save-crops"] else [])
  ++ (if f.all_ocr then ["--all-ocr"] else [])
  ++ (if f.ocr_verbose then ["--ocr-verbose"] else [])
  ++ (if f.no_ocr then ["--no-ocr"] else [])

/-- The final quoting step of buildCommandPreview: a part containing
whitespace is wrapped in double quotes. -/
def quoteArg (s : String) : String :=
  if s.toList.any Char.isWhitespace then "\"" ++ s ++ "\"" else s

/-- buildCommandPreview from App.jsx: quoted parts joined by spaces. -/
def buildCommandPreview (f : Form) : String :=
  String.intercalate " " ((buildCommandPreviewParts f).map quoteArg)

/-- A preset bundle: a partial Form.  A field that the bundle does not
name is `none` (absent from the JavaScript object). -/
structure Preset where
  input : Option String := none
  out : Option String := none
  jsonl : Option String := none
  host : Option String := none
  page_summarize : Option Bool := none
  page_style : Option String := none
  engine : Option String := none
  ollama_text : Option String := none
  embed_model : Option String := none
  mlm_refiner : Option Bool := none
  recon_verbose : Option Bool := none
  save_crops : Option Bool := none
  all_ocr : Option Bool := none
  ocr_verbose : Option Bool := none
  no_ocr : Option Bool := none
deriving DecidableEq

/-- The object spread in applyPreset, App.jsx line 98:
`setForm(prev => (\x7b ...prev, ...p \x7d))` — a field named by `p`
takes the value of `p`, every other field keeps the value of `prev`. -/
def mergePreset (f : Form) (p : Preset) : Form where
  input := p.input.getD f.input
  out := p.out.getD f.out
  jsonl := p.jsonl.getD f.jsonl
  host := p.host.getD f.host
  page_summarize := p.page_summarize.getD f.page_summarize
  page_style := p.page_style.getD f.page_style
  engine := p.engine.getD f.engine
  ollama_text := p.ollama_text.getD f.ollama_text
  embed_model := p.embed_model.getD f.embed_model
  mlm_refiner := p.mlm_refiner.getD f.mlm_refiner
  recon_verbose := p.recon_verbose.getD f.recon_verbose
  save_crops := p.save_crops.getD f.save_crops
  all_ocr := p.all_ocr.getD f.all_ocr
  ocr_verbose := p.ocr_verbose.getD f.ocr_verbose
  no_ocr := p.no_ocr.getD f.no_ocr

/-- applyPreset from App.jsx lines 95-99: look the key up in the preset
map fetched from the backend; an unknown (or falsy) entry leaves the
form untouched, a known one is shallow-merged over the current form. -/
def applyPreset (presets : List (String × Preset)) (key : String) (f : Form) : Form :=
  match lookupKey presets key with
  | none => f
  | some p => mergePreset f p

/-- `llmSelected` and `hasHost` from RunCard.jsx lines 36-38:
summarization is available only with the llm engine and a host that is
non-empty after trimming, that is, a host containing at least one
non-whitespace character. -/
def canSummarize (f : Form) : Bool :=
  f.engine = "llm" && f.host.toList.any (fun c => !c.isWhitespace)

/-- The dependency triple of the RunCard useMemo guard (RunCard.jsx
line 46): `[canSummarize, form.engine, form.host]`. -/
def guardDeps (f : Form) : Bool × String × String :=
  (canSummarize f, f.engine, f.host)

/-- UI state relevant to the summarization guard: the current form and
the dependency triple the useMemo saw at the previous render. -/
structure UiState where
  form : Form
  lastDeps : Bool × String × String
deriving DecidableEq

/-- One render of RunCard (RunCard.jsx lines 41-46): the useMemo body
re-runs only when its dependency array changed since the previous
render; when it runs and summarize is on while `canSummarize` is
false, it clears `page_summarize`.  Clearing `page_summarize` does not
change the dependency triple, so the re-render it causes is a no-op
and one application reaches the fixpoint. -/
def renderGuard (s : UiState) : UiState :=
  let d := guardDeps s.form
  if d ≠ s.lastDeps then
    if !canSummarize s.form && s.form.page_summarize then
      ⟨{ s.form with page_summarize := false }, d⟩
    else ⟨s.form, d⟩
  else s

/-- The state after the initial mount: the useMemo runs unconditionally
on the first render; on DEFAULT_FORM `canSummarize` is true so nothing
is cleared. -/
def initialUiState : UiState :=
  ⟨defaultForm, guardDeps defaultForm⟩

/-- Clicking a preset button: applyPreset updates the form and React
re-renders RunCard, running the guard. -/
def uiApplyPreset (presets : List (String × Preset)) (key : String) (s : UiState) : UiState :=
  renderGuard ⟨applyPreset presets key s.form, s.lastDeps⟩

/-- The body that onRun (App.jsx line 83) serializes into the POST
/run request: the current form, with no re-validation. -/
def onRunBody (s : UiState) : Form := s.form

/-- A history entry as built in onRun, App.jsx line 85: the `ok` field
of the response, the timestamp, the snapshot of the submitted form and
the response itself. -/
structure HistEntry where
  ok : Json
  time : Nat
  form : Form
  res : Json

/-- The App state touched by onRun. -/
structure AppState where
  form : Form
  result : Option Json
  history : List HistEntry
  toast : String
  isRunning : Bool

/-- The net effect of one onRun invocation (App.jsx lines 79-93) on
the App state, as a function of the settled outcome of `runJob(form)`.
On resolution the result is stored and a history entry is prepended;
on rejection only the toast changes.  The transient
`setToast("Running...")` / `setIsRunning(true)` phase is overwritten
by the branch and the finally clause before the handler finishes. -/
def onRunUpdate (s : AppState) (now : Nat) (outcome : Except Api.ApiErr Json) : AppState :=
  match outcome with
  | .ok res =>
      { s with
        result := some res
        history := ⟨(res.objGet "ok").getD .null, now, s.form, res⟩ :: s.history
        toast := if jsTruthy ((res.objGet "ok").getD .null) then "Done" else "Finished with errors"
        isRunning := false }
  | .error _ =>
      { s with toast := "Request failed", isRunning := false }

end Ui

namespace Ps

/-- One parsed response of `GET /run/(id)` as consumed by the
PowerShell poll loops: the `status`, `error` and `result` fields.
PowerShell string comparison `-eq` is case-insensitive; the claims only
mention the lowercase literals, so the model compares exactly. -/
structure PollResp where
  status : String
  error : String
  result : Json

/-- Outcome of a poll loop: the embedded result of a done response, or
a thrown error message. -/
inductive PollOutcome where
  | done (r : Json)
  | fail (msg : String)

/-- The timeout message of Poll-Job (bubblepanel_test_v4.ps1 line 76
and src/unnamed/part_001):
`"Polling timed out after (MaxWaitSec)s (job id: (JobId))."` -/
def timeoutMsg (maxWait : Nat) (jobId : String) : String :=
  "Polling timed out after " ++ toString maxWait ++ "s (job id: " ++ jobId ++ ")."

/-- The do-while body of Poll-Job from bubblepanel_test_v4.ps1 lines
65-77 (identical in src/unnamed/part_001).  `f k` is the response of
the k-th poll (0-based), `t` the elapsed seconds, `every` the value of
PollEverySec (positive, default 2) and `maxWait` MaxWaitSec.  Each
iteration sleeps `every` seconds, polls, returns the embedded result on
status done, throws on status error, otherwise loops while the elapsed
time is below the deadline and finally throws the timeout message.
The second component counts the polls issued. -/
def pollLoop (f : Nat → PollResp) (jobId : String) (every maxWait : Nat)
    (he : 0 < every) (i t : Nat) : PollOutcome × Nat :=
  if (f i).status = "done" then (.done (f i).result, i + 1)
  else if (f i).status = "error" then (.fail ("Job error: " ++ (f i).error), i + 1)
  else if t + every < maxWait then pollLoop f jobId every maxWait he (i + 1) (t + every)
  else (.fail (timeoutMsg maxWait jobId), i + 1)
termination_by maxWait - t
decreasing_by omega

/-- Poll-Job entry point: deadline set to MaxWaitSec from now, polls
start at index 0. -/
def pollJob (f : Nat → PollResp) (jobId : String) (every maxWait : Nat)
    (he : 0 < every) : PollOutcome × Nat :=
  pollLoop f jobId every maxWait he 0 0

/-- Coercion of the id value to the string interpolated into the
`run/(id)` URL; driver scripts only ever receive string ids. -/
def jsToStr : Json → String
  | .str s => s
  | _ => ""

/-- The sync/async dispatch of the main block of
bubblepanel_test_v4.ps1 lines 100-112 (identical in
src/unnamed/part_001): a response carrying a truthy `id` property is
polled, any other response is the final result itself.  The second
component counts the requests made to the `run/(id)` status endpoint. -/
def driveRun (resp : Json) (f : Nat → PollResp) (every maxWait : Nat)
    (he : 0 < every) : PollOutcome × Nat :=
  let idField := resp.objGet "id"
  if idField.isSome && jsTruthy (idField.getD .null) then
    pollJob f (jsToStr (idField.getD .null)) every maxWait he
  else (.done resp, 0)

/-- The inline poll loop of the full-OCR Netlify script
(src/unnamed/part_006, second document, lines 60-69): same do-while
shape as Poll-Job; `jobId` is interpolated only into the polled URL
`(Base)/run/(jobId)`, and on budget exhaustion the thrown message is
`"Polling timed out after (MaxWaitSec)s."` without the job id. -/
def pollLoop6 (f : Nat → PollResp) (jobId : String) (every maxWait : Nat)
    (he : 0 < every) (i t : Nat) : PollOutcome × Nat :=
  if (f i).status = "done" then (.done (f i).result, i + 1)
  else if (f i).status = "error" then (.fail ("Job error: " ++ (f i).error), i + 1)
  else if t + every < maxWait then pollLoop6 f jobId every maxWait he (i + 1) (t + every)
  else (.fail ("Polling timed out after " ++ toString maxWait ++ "s."), i + 1)
termination_by maxWait - t
decreasing_by omega

/-- Substring test on character lists, used to state that a message
does or does not contain the job id. -/
def hasSub (needle : List Char) : List Char → Bool
  | [] => needle.isEmpty
  | c :: rest => needle.isPrefixOf (c :: rest) || hasSub needle rest

end Ps

namespace Uri

/-- Uppercase hexadecimal digit, as emitted by the ECMAScript Encode
abstract operation. -/
def hexDigitChar (n : Nat) : Char :=
  if n < 10 then Char.ofNat (48 + n) else Char.ofNat (55 + n)

/-- Value of a hexadecimal digit character (both cases), as accepted by
the ECMAScript Decode abstract operation. -/
def hexVal (c : Char) : Option Nat :=
  if 48 ≤ c.toNat ∧ c.toNat ≤ 57 then some (c.toNat - 48)
  else if 65 ≤ c.toNat ∧ c.toNat ≤ 70 then some (c.toNat - 55)
  else if 97 ≤ c.toNat ∧ c.toNat ≤ 102 then some (c.toNat - 87)
  else none

/-- The three characters `%XY` escaping one byte. -/
def pctByte (b : Nat) : List Char :=
  ['%', hexDigitChar (b / 16), hexDigitChar (b % 16)]

/-- UTF-8 encoding of one Unicode scalar value. -/
def utf8Bytes (n : Nat) : List Nat :=
  if n < 0x80 then [n]
  else if n < 0x800 then [0xC0 + n / 64, 0x80 + n % 64]
  else if n < 0x10000 then [0xE0 + n / 4096, 0x80 + n / 64 % 64, 0x80 + n % 64]
  else [0xF0 + n / 262144, 0x80 + n / 4096 % 64, 0x80 + n / 64 % 64, 0x80 + n % 64]

/-- The unescaped set of `encodeURIComponent`: ASCII letters, digits
and the marks `- _ . ! ~ * ( )` and the apostrophe (code 39). -/
def isUriUnreserved (c : Char) : Bool :=
  (65 ≤ c.toNat && c.toNat ≤ 90) || (97 ≤ c.toNat && c.toNat ≤ 122) ||
  (48 ≤ c.toNat && c.toNat ≤ 57) ||
  c = '-' || c = '_' || c = '.' || c = '!' || c = '~' || c = '*' ||
  c.toNat = 39 || c = '(' || c = ')'

/-- `encodeURIComponent` on one character: unreserved characters pass
through, every other character is replaced by the percent escapes of
its UTF-8 bytes. -/
def encChar (c : Char) : List Char :=
  if isUriUnreserved c then [c] else (utf8Bytes c.toNat).flatMap pctByte

/-- The ECMAScript builtin `encodeURIComponent`, on strings viewed as
lists of Unicode scalar values. -/
def encodeURIComponent (s : List Char) : List Char := s.flatMap encChar

mutual

/-- The ECMAScript builtin `decodeURIComponent` (whose reserved set is
empty, so every percent escape is decoded): literal characters pass
through, a `%` introduces one UTF-8 encoded scalar value whose
continuation escapes must follow immediately; malformed input gives
`none` (URIError). -/
def decodeURIComponent : List Char → Option (List Char)
  | [] => some []
  | c :: rest =>
    if c = '%' then decodeEsc rest
    else (decodeURIComponent rest).map (fun l => c :: l)
termination_by l => (l.length, 0)

/-- Decode the escape sequence that follows a literal `%`: two hex
digits give the lead byte, which determines how many continuation
escapes belong to the same UTF-8 sequence. -/
def decodeEsc : List Char → Option (List Char)
  | h1 :: h2 :: rest =>
    match hexVal h1, hexVal h2 with
    | some v1, some v2 => decodeLead (16 * v1 + v2) rest
    | _, _ => none
  | _ => none
termination_by l => (l.length, 1)

/-- Dispatch on the lead byte of a percent-escaped UTF-8 sequence:
ASCII bytes decode alone; C2-DF, E0-EF and F0-F4 expect one, two and
three continuation escapes; C0, C1 (overlong) and F5-FF are invalid. -/
def decodeLead (b : Nat) (rest : List Char) : Option (List Char) :=
  if b < 0x80 then (decodeURIComponent rest).map (fun l => Char.ofNat b :: l)
  else if b < 0xC2 then none
  else if b < 0xE0 then decodeCont1 b rest
  else if b < 0xF0 then decodeCont2 b rest
  else if b < 0xF5 then decodeCont3 b rest
  else none
termination_by (rest.length, 2)

/-- One continuation escape: a two-byte UTF-8 sequence (C2-DF lead),
whose scalar value is at least 0x80 by construction of the lead
range. -/
def decodeCont1 (b : Nat) : List Char → Option (List Char)
  | '%' :: h3 :: h4 :: rest =>
    match hexVal h3, hexVal h4 with
    | some v3, some v4 =>
      let b1 := 16 * v3 + v4
      if 0x80 ≤ b1 ∧ b1 < 0xC0 then
        (decodeURIComponent rest).map
          (fun l => Char.ofNat ((b - 0xC0) * 64 + (b1 - 0x80)) :: l)
      else none
    | _, _ => none
  | _ => none
termination_by l => (l.length, 1)

/-- Two continuation escapes: a three-byte UTF-8 sequence; rejects
overlong encodings (below 0x800) and surrogate code points. -/
def decodeCont2 (b : Nat) : List Char → Option (List Char)
  | '%' :: h3 :: h4 :: '%' :: h5 :: h6 :: rest =>
    match hexVal h3, hexVal h4, hexVal h5, hexVal h6 with
    | some v3, some v4, some v5, some v6 =>
      let b1 := 16 * v3 + v4
      let b2 := 16 * v5 + v6
      let n := (b - 0xE0) * 4096 + (b1 - 0x80) * 64 + (b2 - 0x80)
      if (0x80 ≤ b1 ∧ b1 < 0xC0) ∧ (0x80 ≤ b2 ∧ b2 < 0xC0) ∧
         0x800 ≤ n ∧ ¬(0xD800 ≤ n ∧ n < 0xE000) then
        (decodeURIComponent rest).map (fun l => Char.ofNat n :: l)
      else none
    | _, _, _, _ => none
  | _ => none
termination_by l => (l.length, 1)

/-- Three continuation escapes: a four-byte UTF-8 sequence; rejects
overlong encodings (below 0x10000) and values beyond 0x10FFFF. -/
def decodeCont3 (b : Nat) : List Char → Option (List Char)
  | '%' :: h3 :: h4 :: '%' :: h5 :: h6 :: '%' :: h7 :: h8 :: rest =>
    match hexVal h3, hexVal h4, hexVal h5, hexVal h6, hexVal h7, hexVal h8 with
    | some v3, some v4, some v5, some v6, some v7, some v8 =>
      let b1 := 16 * v3 + v4
      let b2 := 16 * v5 + v6
      let b3 := 16 * v7 + v8
      let n := (b - 0xF0) * 262144 + (b1 - 0x80) * 4096 +
               (b2 - 0x80) * 64 + (b3 - 0x80)
      if (0x80 ≤ b1 ∧ b1 < 0xC0) ∧ (0x80 ≤ b2 ∧ b2 < 0xC0) ∧
         (0x80 ≤ b3 ∧ b3 < 0xC0) ∧ 0x10000 ≤ n ∧ n < 0x110000 then
        (decodeURIComponent rest).map (fun l => Char.ofNat n :: l)
      else none
    | _, _, _, _, _, _ => none
  | _ => none
termination_by l => (l.length, 1)

end

/-- The backend base URL: api.js line 2, with no VITE_API configured
the fallback is used. -/
def apiBase : List Char := "http://127.0.0.1:8080".toList

/-- `fileUrl` from api.js line 68:
`(API)/file?path=(encodeURIComponent(p))`, a pure function with no
network call. -/
def fileUrl (p : List Char) : List Char :=
  apiBase ++ "/file?path=".toList ++ encodeURIComponent p

/-- The value of the `path` query parameter of a URL of the shape built
by fileUrl: everything after the `?path=` marker (encodeURIComponent
output never contains an unescaped `?`, `&` or `=`, so the parameter
extends to the end of the URL). -/
def pathParamValue (u : List Char) : List Char :=
  (u.dropWhile (fun c => c ≠ '?')).drop 6

end Uri

/-! ## Helper lemmas: percent-encoding round trip -/

/-- A hex digit emitted by the encoder is read back to its value. -/
lemma hexVal_hexDigit_all : ∀ k < 16, Uri.hexVal (Uri.hexDigitChar k) = some k := by decide

/-- Decoding a percent-escaped ASCII byte. -/
lemma decode_pct1 (b : Nat) (hb : b < 0x80) (xs : List Char) :
    Uri.decodeURIComponent (Uri.pctByte b ++ xs) =
      (Uri.decodeURIComponent xs).map (fun l => Char.ofNat b :: l) := by
  have e1 := hexVal_hexDigit_all (b / 16) (by omega)
  have e2 := hexVal_hexDigit_all (b % 16) (by omega)
  simp only [Uri.pctByte, List.cons_append, List.nil_append]
  rw [Uri.decodeURIComponent]
  simp only [reduceIte]
  rw [Uri.decodeEsc, e1, e2]
  show Uri.decodeLead (16 * (b / 16) + b % 16) xs = _
  rw [Nat.div_add_mod]
  rw [Uri.decodeLead, if_pos hb]

/-- Decoding a percent-escaped two-byte UTF-8 sequence. -/
lemma decode_pct2 (b0 b1 : Nat) (h0 : 0xC2 ≤ b0) (h0e : b0 < 0xE0)
    (h1l : 0x80 ≤ b1) (h1h : b1 < 0xC0) (xs : List Char) :
    Uri.decodeURIComponent (Uri.pctByte b0 ++ (Uri.pctByte b1 ++ xs)) =
      (Uri.decodeURIComponent xs).map
        (fun l => Char.ofNat ((b0 - 0xC0) * 64 + (b1 - 0x80)) :: l) := by
  have e1 := hexVal_hexDigit_all (b0 / 16) (by omega)
  have e2 := hexVal_hexDigit_all (b0 % 16) (by omega)
  have e3 := hexVal_hexDigit_all (b1 / 16) (by omega)
  have e4 := hexVal_hexDigit_all (b1 % 16) (by omega)
  simp only [Uri.pctByte, List.cons_append, List.nil_append]
  rw [Uri.decodeURIComponent]
  simp only [reduceIte]
  rw [Uri.decodeEsc, e1, e2]
  show Uri.decodeLead (16 * (b0 / 16) + b0 % 16) _ = _
  rw [Nat.div_add_mod]
  rw [Uri.decodeLead, if_neg (by omega), if_neg (by omega), if_pos h0e]
  rw [Uri.decodeCont1, e3, e4]
  simp only [Nat.div_add_mod]
  rw [if_pos ⟨h1l, h1h⟩]

/-- Decoding a percent-escaped three-byte UTF-8 sequence. -/
lemma decode_pct3 (b0 b1 b2 : Nat) (h0 : 0xE0 ≤ b0) (h0e : b0 < 0xF0)
    (h1l : 0x80 ≤ b1) (h1h : b1 < 0xC0) (h2l : 0x80 ≤ b2) (h2h : b2 < 0xC0)
    (hlo : 0x800 ≤ (b0 - 0xE0) * 4096 + (b1 - 0x80) * 64 + (b2 - 0x80))
    (hsur : ¬(0xD800 ≤ (b0 - 0xE0) * 4096 + (b1 - 0x80) * 64 + (b2 - 0x80) ∧
              (b0 - 0xE0) * 4096 + (b1 - 0x80) * 64 + (b2 - 0x80) < 0xE000))
    (xs : List Char) :
    Uri.decodeURIComponent (Uri.pctByte b0 ++ (Uri.pctByte b1 ++ (Uri.pctByte b2 ++ xs))) =
      (Uri.decodeURIComponent xs).map
        (fun l => Char.ofNat ((b0 - 0xE0) * 4096 + (b1 - 0x80) * 64 + (b2 - 0x80)) :: l) := by
  have e1 := hexVal_hexDigit_all (b0 / 16) (by omega)
  have e2 := hexVal_hexDigit_all (b0 % 16) (by omega)
  have e3 := hexVal_hexDigit_all (b1 / 16) (by omega)
  have e4 := hexVal_hexDigit_all (b1 % 16) (by omega)
  have e5 := hexVal_hexDigit_all (b2 / 16) (by omega)
  have e6 := hexVal_hexDigit_all (b2 % 16) (by omega)
  simp only [Uri.pctByte, List.cons_append, List.nil_append]
  rw [Uri.decodeURIComponent]
  simp only [reduceIte]
  rw [Uri.decodeEsc, e1, e2]
  show Uri.decodeLead (16 * (b0 / 16) + b0 % 16) _ = _
  rw [Nat.div_add_mod]
  rw [Uri.decodeLead, if_neg (by omega), if_neg (by omega), if_neg (by omega), if_pos h0e]
  rw [Uri.decodeCont2, e3, e4, e5, e6]
  simp only [Nat.div_add_mod]
  rw [if_pos ⟨⟨h1l, h1h⟩, ⟨h2l, h2h⟩, hlo, hsur⟩]

/-- Decoding a percent-escaped four-byte UTF-8 sequence. -/
lemma decode_pct4 (b0 b1 b2 b3 : Nat) (h0 : 0xF0 ≤ b0) (h0e : b0 < 0xF5)
    (h1l : 0x80 ≤ b1) (h1h : b1 < 0xC0) (h2l : 0x80 ≤ b2) (h2h : b2 < 0xC0)
    (h3l : 0x80 ≤ b3) (h3h : b3 < 0xC0)
    (hlo : 0x10000 ≤ (b0 - 0xF0) * 262144 + (b1 - 0x80) * 4096 + (b2 - 0x80) * 64 + (b3 - 0x80))
    (hhi : (b0 - 0xF0) * 262144 + (b1 - 0x80) * 4096 + (b2 - 0x80) * 64 + (b3 - 0x80) < 0x110000)
    (xs : List Char) :
    Uri.decodeURIComponent
        (Uri.pctByte b0 ++ (Uri.pctByte b1 ++ (Uri.pctByte b2 ++ (Uri.pctByte b3 ++ xs)))) =
      (Uri.decodeURIComponent xs).map
        (fun l => Char.ofNat
          ((b0 - 0xF0) * 262144 + (b1 - 0x80) * 4096 + (b2 - 0x80) * 64 + (b3 - 0x80)) :: l) := by
  have e1 := hexVal_hexDigit_all (b0 / 16) (by omega)
  have e2 := hexVal_hexDigit_all (b0 % 16) (by omega)
  have e3 := hexVal_hexDigit_all (b1 / 16) (by omega)
  have e4 := hexVal_hexDigit_all (b1 % 16) (by omega)
  have e5 := hexVal_hexDigit_all (b2 / 16) (by omega)
  have e6 := hexVal_hexDigit_all (b2 % 16) (by omega)
  have e7 := hexVal_hexDigit_all (b3 / 16) (by omega)
  have e8 := hexVal_hexDigit_all (b3 % 16) (by omega)
  simp only [Uri.pctByte, List.cons_append, List.nil_append]
  rw [Uri.decodeURIComponent]
  simp only [reduceIte]
  rw [Uri.decodeEsc, e1, e2]
  show Uri.decodeLead (16 * (b0 / 16) + b0 % 16) _ = _
  rw [Nat.div_add_mod]
  rw [Uri.decodeLead, if_neg (by omega), if_neg (by omega), if_neg (by omega),
      if_neg (by omega), if_pos h0e]
  rw [Uri.decodeCont3, e3, e4, e5, e6, e7, e8]
  simp only [Nat.div_add_mod]
  rw [if_pos ⟨⟨h1l, h1h⟩, ⟨h2l, h2h⟩, ⟨h3l, h3h⟩, hlo, hhi⟩]

/-- A literal character passes through the decoder. -/
lemma decode_lit (c : Char) (hc : c ≠ '%') (xs : List Char) :
    Uri.decodeURIComponent (c :: xs) = (Uri.decodeURIComponent xs).map (fun l => c :: l) := by
  rw [Uri.decodeURIComponent, if_neg hc]

/-- The percent sign is not in the unescaped set. -/
lemma unreserved_ne_pct (c : Char) (h : Uri.isUriUnreserved c = true) : c ≠ '%' := by
  intro he
  subst he
  exact absurd h (by decide)

/-- Decoding the encoding of one character peels exactly that
character, whatever follows. -/
lemma decode_encChar (c : Char) (xs : List Char) :
    Uri.decodeURIComponent (Uri.encChar c ++ xs) =
      (Uri.decodeURIComponent xs).map (fun l => c :: l) := by
  by_cases hu : Uri.isUriUnreserved c
  · rw [Uri.encChar, if_pos hu, List.singleton_append]
    exact decode_lit c (unreserved_ne_pct c hu) xs
  · have hv : c.toNat < 0xD800 ∨ (0xDFFF < c.toNat ∧ c.toNat < 0x110000) := c.valid
    rw [Uri.encChar, if_neg hu]
    by_cases hA : c.toNat < 0x80
    · rw [Uri.utf8Bytes, if_pos hA]
      simp only [List.flatMap_cons, List.flatMap_nil, List.append_nil]
      rw [decode_pct1 c.toNat hA xs, Char.ofNat_toNat]
    · by_cases hB : c.toNat < 0x800
      · rw [Uri.utf8Bytes, if_neg hA, if_pos hB]
        simp only [List.flatMap_cons, List.flatMap_nil, List.append_nil, List.append_assoc]
        rw [decode_pct2 _ _ (by omega) (by omega) (by omega) (by omega) xs]
        have hval : (0xC0 + c.toNat / 64 - 0xC0) * 64 + (0x80 + c.toNat % 64 - 0x80) = c.toNat := by
          omega
        rw [hval, Char.ofNat_toNat]
      · by_cases hC : c.toNat < 0x10000
        · rw [Uri.utf8Bytes, if_neg hA, if_neg hB, if_pos hC]
          simp only [List.flatMap_cons, List.flatMap_nil, List.append_nil, List.append_assoc]
          have hval : (0xE0 + c.toNat / 4096 - 0xE0) * 4096 +
              (0x80 + c.toNat / 64 % 64 - 0x80) * 64 + (0x80 + c.toNat % 64 - 0x80) = c.toNat := by
            omega
          rw [decode_pct3 _ _ _ (by omega) (by omega) (by omega) (by omega) (by omega) (by omega)
              (by rw [hval]; omega) (by rw [hval]; omega) xs]
          rw [hval, Char.ofNat_toNat]
        · rw [Uri.utf8Bytes, if_neg hA, if_neg hB, if_neg hC]
          simp only [List.flatMap_cons, List.flatMap_nil, List.append_nil, List.append_assoc]
          have hval : (0xF0 + c.toNat / 262144 - 0xF0) * 262144 +
              (0x80 + c.toNat / 4096 % 64 - 0x80) * 4096 +
              (0x80 + c.toNat / 64 % 64 - 0x80) * 64 + (0x80 + c.toNat % 64 - 0x80) = c.toNat := by
            omega
          rw [decode_pct4 _ _ _ _ (by omega) (by omega) (by omega) (by omega) (by omega)
              (by omega) (by omega) (by omega) (by rw [hval]; omega) (by rw [hval]; omega) xs]
          rw [hval, Char.ofNat_toNat]

/-- decodeURIComponent inverts encodeURIComponent on every string of
Unicode scalar values. -/
lemma decode_encode (p : List Char) :
    Uri.decodeURIComponent (Uri.encodeURIComponent p) = some p := by
  induction p with
  | nil => rw [Uri.encodeURIComponent, List.flatMap_nil, Uri.decodeURIComponent]
  | cons c s ih =>
    rw [Uri.encodeURIComponent, List.flatMap_cons]
    rw [show s.flatMap Uri.encChar = Uri.encodeURIComponent s from rfl]
    rw [decode_encChar, ih]
    rfl

/-- The path query parameter of a fileUrl is exactly the encoded
path. -/
lemma pathParam_fileUrl (p : List Char) :
    Uri.pathParamValue (Uri.fileUrl p) = Uri.encodeURIComponent p := by
  unfold Uri.fileUrl Uri.pathParamValue
  rw [List.dropWhile_append]
  have hL : (Uri.apiBase ++ "/file?path=".toList).dropWhile (fun c => c ≠ '?') =
      "?path=".toList := by decide
  rw [hL]
  norm_num [List.isEmpty]

/-! ## Helper lemmas: the Poll-Job do-while loop -/

/-- Invariant of the Poll-Job loop for the done outcome: a result is
returned only from the first terminal response, and it is exactly the
embedded result field of that response. -/
lemma pollLoop_done_inv (f : Nat → Ps.PollResp) (jid : String) (every maxWait : Nat)
    (he : 0 < every) :
    ∀ d i t, maxWait - t ≤ d →
      ∀ r n, Ps.pollLoop f jid every maxWait he i t = (.done r, n) →
      ∃ j, i ≤ j ∧ n = j + 1 ∧ (f j).status = "done" ∧ r = (f j).result ∧
        ∀ k, i ≤ k → k < j → (f k).status ≠ "done" ∧ (f k).status ≠ "error" := by
  intro d
  induction d with
  | zero =>
    intro i t hd r n h
    rw [Ps.pollLoop] at h
    split at h
    · rename_i hs
      injection h with h1 h2
      injection h1 with h1
      exact ⟨i, Nat.le_refl i, h2.symm, hs, h1.symm,
        fun k hk1 hk2 => absurd hk2 (by omega)⟩
    · split at h
      · exact absurd h (by simp)
      · split at h
        · rename_i ht
          omega
        · exact absurd h (by simp)
  | succ d ih =>
    intro i t hd r n h
    rw [Ps.pollLoop] at h
    split at h
    · rename_i hs
      injection h with h1 h2
      injection h1 with h1
      exact ⟨i, Nat.le_refl i, h2.symm, hs, h1.symm,
        fun k hk1 hk2 => absurd hk2 (by omega)⟩
    · rename_i hs1
      split at h
      · exact absurd h (by simp)
      · rename_i hs2
        split at h
        · rename_i ht
          obtain ⟨j, hj1, hj2, hj3, hj4, hj5⟩ := ih (i + 1) (t + every) (by omega) r n h
          refine ⟨j, by omega, hj2, hj3, hj4, ?_⟩
          intro k hk1 hk2
          rcases Nat.eq_or_lt_of_le hk1 with hk | hk
          · subst hk
            exact ⟨hs1, hs2⟩
          · exact hj5 k hk hk2
        · exact absurd h (by simp)

/-- Invariant of the Poll-Job loop for the error outcome: if the first
terminal response has status error and its iteration is inside the
deadline, the loop throws the job-error message built from that
response and issues exactly that many polls. -/
lemma pollLoop_error_inv (f : Nat → Ps.PollResp) (jid : String) (every maxWait : Nat)
    (he : 0 < every) :
    ∀ d i t j, j - i = d → i ≤ j → (f j).status = "error" →
      (∀ k, i ≤ k → k < j → (f k).status ≠ "done" ∧ (f k).status ≠ "error") →
      (j = i ∨ t + (j - i) * every < maxWait) →
      Ps.pollLoop f jid every maxWait he i t =
        (.fail ("Job error: " ++ (f j).error), j + 1) := by
  intro d
  induction d with
  | zero =>
    intro i t j hd hij herr hfirst hbud
    have hji : j = i := by omega
    subst hji
    rw [Ps.pollLoop]
    rw [if_neg (by rw [herr]; decide), if_pos herr]
  | succ d ih =>
    intro i t j hd hij herr hfirst hbud
    have hlt : i < j := by omega
    have hnt := hfirst i (Nat.le_refl i) hlt
    have hbud2 : t + (j - i) * every < maxWait := by
      rcases hbud with h | h
      · omega
      · exact h
    have hstep : t + every < maxWait := by
      have h1 : every ≤ (j - i) * every := Nat.le_mul_of_pos_left every (by omega)
      omega
    rw [Ps.pollLoop]
    rw [if_neg hnt.1, if_neg hnt.2, if_pos hstep]
    refine ih (i + 1) (t + every) j (by omega) (by omega) herr
      (fun k hk1 hk2 => hfirst k (by omega) hk2) ?_
    rcases Nat.eq_or_lt_of_le (Nat.succ_le_of_lt hlt) with hk | hk
    · exact Or.inl hk.symm
    · right
      have hji : j - i = (j - (i + 1)) + 1 := by omega
      have : (j - i) * every = (j - (i + 1)) * every + every := by
        rw [hji, Nat.succ_mul]
      omega

/-- Invariant of the Poll-Job loop for the timeout outcome: if every
response polled inside the deadline is non-terminal, the loop throws
the timeout message. -/
lemma pollLoop_timeout_inv (f : Nat → Ps.PollResp) (jid : String) (every maxWait : Nat)
    (he : 0 < every) :
    ∀ d i t, maxWait - t ≤ d →
      (∀ k, i ≤ k → (k = i ∨ t + (k - i) * every < maxWait) →
        (f k).status ≠ "done" ∧ (f k).status ≠ "error") →
      (Ps.pollLoop f jid every maxWait he i t).1 = .fail (Ps.timeoutMsg maxWait jid) := by
  intro d
  induction d with
  | zero =>
    intro i t hd hnt
    have h0 := hnt i (Nat.le_refl i) (Or.inl rfl)
    rw [Ps.pollLoop, if_neg h0.1, if_neg h0.2, if_neg (by omega)]
  | succ d ih =>
    intro i t hd hnt
    have h0 := hnt i (Nat.le_refl i) (Or.inl rfl)
    rw [Ps.pollLoop, if_neg h0.1, if_neg h0.2]
    by_cases ht : t + every < maxWait
    · rw [if_pos ht]
      refine ih (i + 1) (t + every) (by omega) ?_
      intro k hk1 hk2
      refine hnt k (by omega) ?_
      rcases hk2 with hk | hk
      · right
        have : k - i = 1 := by omega
        rw [this]
        omega
      · right
        have hki : k - i = (k - (i + 1)) + 1 := by omega
        have : (k - i) * every = (k - (i + 1)) * every + every := by
          rw [hki, Nat.succ_mul]
        omega
    · rw [if_neg ht]

/-! ## Helper lemmas: substring witness -/

/-- The empty needle is a substring of anything. -/
lemma hasSub_nil_needle : ∀ hay : List Char, Ps.hasSub [] hay = true := by
  intro hay
  induction hay with
  | nil => rfl
  | cons c rest ih => simp [Ps.hasSub, List.isPrefixOf]

/-- A list is a Boolean prefix of itself followed by anything. -/
lemma isPrefixOf_append_self : ∀ n b : List Char, n.isPrefixOf (n ++ b) = true := by
  intro n b
  induction n with
  | nil => simp [List.isPrefixOf]
  | cons c cs ih => simp [List.isPrefixOf, ih]

/-- Any explicit decomposition hay = a ++ n ++ b makes hasSub n hay
true; contrapositively a false hasSub refutes every decomposition. -/
lemma hasSub_of_decomp (n : List Char) : ∀ a b, Ps.hasSub n (a ++ (n ++ b)) = true := by
  intro a
  induction a with
  | nil =>
    intro b
    cases n with
    | nil => simpa using hasSub_nil_needle b
    | cons c cs =>
      simp only [List.nil_append, List.cons_append, Ps.hasSub, List.append_eq]
      have h := isPrefixOf_append_self (c :: cs) b
      simp only [List.cons_append] at h
      rw [h]
      simp
  | cons x xs ih =>
    intro b
    simp only [List.cons_append, Ps.hasSub, List.append_eq]
    rw [ih b]
    simp

/-! ## Claim theorems -/

/-- C1: the claim says that every submission triggered by Run sends
`page_summarize = false` whenever the host is empty or whitespace-only
or the engine is not the llm engine, the invariant being re-established
at the moment of sending.  The code does not re-validate at send time:
onRun submits the form as-is, and the RunCard guard is a useMemo whose
dependency array is only `[canSummarize, engine, host]`.  This theorem
evaluates the code at the failing interaction: starting from the
default form, applying a Qwen-style preset with an empty host clears
the toggle (the dependencies changed), but then applying a Llama-style
preset that again sets `page_summarize = true` leaves engine, host and
canSummarize unchanged, so the guard does not re-run and Run submits
`page_summarize = true` with an empty host and the llm engine — the
body the claim says can never be sent. -/
theorem c1_stale_summarize_submitted :
    (Ui.onRunBody
        (Ui.uiApplyPreset
          [("llm_paragraph_qwen",
            ({ engine := some "llm", ollama_text := some "qwen2.5:7b-instruct",
               host := some "", page_summarize := some true,
               page_style := some "paragraph" } : Ui.Preset))]
          "llm_paragraph_qwen" Ui.initialUiState)).page_summarize = false ∧
    ((Ui.onRunBody
        (Ui.uiApplyPreset
          [("llm_paragraph_llama",
            ({ engine := some "llm", ollama_text := some "llama3.1:latest",
               host := some "", page_summarize := some true,
               page_style := some "paragraph" } : Ui.Preset))]
          "llm_paragraph_llama"
          (Ui.uiApplyPreset
            [("llm_paragraph_qwen",
              ({ engine := some "llm", ollama_text := some "qwen2.5:7b-instruct",
                 host := some "", page_summarize := some true,
                 page_style := some "paragraph" } : Ui.Preset))]
            "llm_paragraph_qwen" Ui.initialUiState))).page_summarize = true ∧
      (Ui.onRunBody
        (Ui.uiApplyPreset
          [("llm_paragraph_llama",
            ({ engine := some "llm", ollama_text := some "llama3.1:latest",
               host := some "", page_summarize := some true,
               page_style := some "paragraph" } : Ui.Preset))]
          "llm_paragraph_llama"
          (Ui.uiApplyPreset
            [("llm_paragraph_qwen",
              ({ engine := some "llm", ollama_text := some "qwen2.5:7b-instruct",
                 host := some "", page_summarize := some true,
                 page_style := some "paragraph" } : Ui.Preset))]
            "llm_paragraph_qwen" Ui.initialUiState))).host = "" ∧
      (Ui.onRunBody
        (Ui.uiApplyPreset
          [("llm_paragraph_llama",
            ({ engine := some "llm", ollama_text := some "llama3.1:latest",
               host := some "", page_summarize := some true,
               page_style := some "paragraph" } : Ui.Preset))]
          "llm_paragraph_llama"
          (Ui.uiApplyPreset
            [("llm_paragraph_qwen",
              ({ engine := some "llm", ollama_text := some "qwen2.5:7b-instruct",
                 host := some "", page_summarize := some true,
                 page_style := some "paragraph" } : Ui.Preset))]
            "llm_paragraph_qwen" Ui.initialUiState))).engine = "llm") := by
  refine ⟨by decide, by decide, by decide, by decide⟩

/-- C2: for every stream of poll responses, the Poll-Job loop returns a
result only from a response with status done and the value returned is
exactly the result field of that response (first conjunct, which also
shows every earlier response was non-terminal); and when the first
terminal response, polled within the budget, has status error, the
loop fails with the job-error message built from it and the total
number of polls issued is exactly that position plus one, so no
further poll follows the error (second conjunct). -/
theorem c2_poll_job_terminal (f : Nat → Ps.PollResp) (jid : String)
    (every maxWait : Nat) (he : 0 < every) :
    (∀ r n, Ps.pollJob f jid every maxWait he = (.done r, n) →
      ∃ j, n = j + 1 ∧ (f j).status = "done" ∧ r = (f j).result ∧
        ∀ k, k < j → (f k).status ≠ "done" ∧ (f k).status ≠ "error") ∧
    (∀ j, (f j).status = "error" →
      (∀ k, k < j → (f k).status ≠ "done" ∧ (f k).status ≠ "error") →
      (j = 0 ∨ j * every < maxWait) →
      Ps.pollJob f jid every maxWait he = (.fail ("Job error: " ++ (f j).error), j + 1)) := by
  constructor
  · intro r n h
    obtain ⟨j, _, hj2, hj3, hj4, hj5⟩ :=
      pollLoop_done_inv f jid every maxWait he maxWait 0 0 (by omega) r n h
    exact ⟨j, hj2, hj3, hj4, fun k hk => hj5 k (Nat.zero_le k) hk⟩
  · intro j herr hfirst hbud
    refine pollLoop_error_inv f jid every maxWait he j 0 0 j (by omega) (Nat.zero_le j) herr
      (fun k _ hk => hfirst k hk) ?_
    simpa using hbud

/-- Witness for C2: a concrete run where the second poll reports an
error stops after exactly two polls with the message of that
response. -/
theorem c2_witness :
    Ps.pollJob
      (fun k => if k = 0 then ⟨"running", "", Json.null⟩ else ⟨"error", "boom", Json.null⟩)
      "job-7" 2 600 (by decide) = (.fail "Job error: boom", 2) := by
  have h := (c2_poll_job_terminal
      (fun k => if k = 0 then ⟨"running", "", Json.null⟩ else ⟨"error", "boom", Json.null⟩)
      "job-7" 2 600 (by decide)).2 1 (by decide)
      (by intro k hk; interval_cases k; exact ⟨by decide, by decide⟩)
      (by decide)
  simpa using h

/-- C3: a /run response without an id field, or with a falsy id, is
treated by the driver as the final result itself, with zero requests
to the run/(id) status endpoint. -/
theorem c3_sync_response_no_polling (resp : Json) (f : Nat → Ps.PollResp)
    (every maxWait : Nat) (he : 0 < every)
    (hid : resp.objGet "id" = none ∨ jsTruthy ((resp.objGet "id").getD .null) = false) :
    Ps.driveRun resp f every maxWait he = (.done resp, 0) := by
  rcases hid with h | h <;> simp [Ps.driveRun, h]

/-- Witness for C3: a concrete sync-shaped response is returned as-is
with a poll count of zero. -/
theorem c3_witness :
    Ps.driveRun (.obj [("ok", .bool true), ("command", .str "python smoke_test.py")])
      (fun _ => ⟨"running", "", .null⟩) 2 600 (by decide) =
      (.done (.obj [("ok", .bool true), ("command", .str "python smoke_test.py")]), 0) :=
  c3_sync_response_no_polling _ _ 2 600 (by decide) (Or.inl rfl)

/-- C4 counterexample: the claim quantifies over every polling run of
the repository and its sources include the inline poll loop of the
full-OCR Netlify script (src/unnamed/part_006), whose timeout message
is only "Polling timed out after (MaxWaitSec)s.": at a concrete run
that polls job id abc123 and never sees a terminal status, the thrown
message admits no decomposition around the job id string, so it does
not contain the job id as the claim requires. -/
theorem c4_part006_counterexample :
    (Ps.pollLoop6 (fun _ => ⟨"running", "", Json.null⟩) "abc123" 2 4 (by decide) 0 0).1 =
      .fail "Polling timed out after 4s." ∧
    ¬∃ a b : List Char,
      "Polling timed out after 4s.".toList = a ++ ("abc123".toList ++ b) := by
  constructor
  · rw [Ps.pollLoop6]
    norm_num
    rw [Ps.pollLoop6]
    norm_num
    rfl
  · rintro ⟨a, b, hab⟩
    have h1 := hasSub_of_decomp "abc123".toList a b
    rw [← hab] at h1
    exact absurd h1 (by decide)

/-- C4 as amended: in the Poll-Job function (bubblepanel_test_v4.ps1
and src/unnamed/part_001) a polling run in which no response polled
within the MaxWaitSec budget is terminal fails with the timeout
message, and that message contains the original job id string (shown
by an explicit decomposition); the inline loop of the part_006 script
is the exception recorded by the counterexample. -/
theorem c4_poll_job_timeout_names_id (f : Nat → Ps.PollResp) (jid : String)
    (every maxWait : Nat) (he : 0 < every)
    (hnt : ∀ k, (k = 0 ∨ k * every < maxWait) →
      (f k).status ≠ "done" ∧ (f k).status ≠ "error") :
    (Ps.pollJob f jid every maxWait he).1 = .fail (Ps.timeoutMsg maxWait jid) ∧
    ∃ a b : String, Ps.timeoutMsg maxWait jid = a ++ jid ++ b := by
  constructor
  · refine pollLoop_timeout_inv f jid every maxWait he maxWait 0 0 (by omega) ?_
    intro k _ hk
    refine hnt k ?_
    simpa using hk
  · exact ⟨"Polling timed out after " ++ toString maxWait ++ "s (job id: ", ").",
      by simp [Ps.timeoutMsg, String.append_assoc]⟩

/-- Witness for the amended C4: a concrete never-terminal run times out
with a message decomposing around the job id abc123. -/
theorem c4_witness :
    (Ps.pollJob (fun _ => ⟨"running", "", Json.null⟩) "abc123" 2 4 (by decide)).1 =
      .fail (Ps.timeoutMsg 4 "abc123") ∧
    ∃ a b : String, Ps.timeoutMsg 4 "abc123" = a ++ "abc123" ++ b :=
  c4_poll_job_timeout_names_id (fun _ => ⟨"running", "", Json.null⟩) "abc123" 2 4
    (by decide) (by intro k _; exact ⟨by simp, by simp⟩)

/-- C5 counterexample: the claim says the bad-json error carries the
raw response text, explicitly including empty bodies; but on a 200
response with an empty body the error body field is the placeholder
"(empty)", which differs from the raw text, and runJob does not
produce the raw-text-carrying error the claim describes. -/
theorem c5_empty_body_counterexample :
    Api.runJob Api.jsParseFail ⟨true, 200, "OK", ""⟩ =
      .error { kind := .badJson, message := "Invalid JSON from server", status := 0,
               body := "(empty)" } ∧
    ("(empty)" : String) ≠ "" ∧
    (Api.runJob Api.jsParseFail ⟨true, 200, "OK", ""⟩ ≠
      .error { kind := .badJson, message := "Invalid JSON from server", status := 0,
               body := "" }) := by
  refine ⟨rfl, by decide, ?_⟩
  intro h
  simp [Api.runJob, Api.readBody, Api.jsParseFail, jsFalsy] at h

/-- C5 as amended: for every 2xx response whose body fails to parse as
JSON, runJob fails with the distinct bad-json kind (never the http
kind, and the parse failure is caught rather than propagated), the
error carrying the raw response text when it is non-empty and the
literal placeholder "(empty)" when the body is empty. -/
theorem c5_run_job_bad_json (p : String → Option Json) (r : Api.HttpResp)
    (hok : r.ok = true) (hp : p r.text = none) :
    Api.runJob p r =
      .error { kind := .badJson, message := "Invalid JSON from server", status := 0,
               body := if r.text = "" then "(empty)" else r.text } := by
  simp [Api.runJob, Api.readBody, hok, hp, jsFalsy]

/-- Witness for the amended C5: a concrete 200 response with a
non-JSON body produces the bad-json error carrying that body. -/
theorem c5_witness :
    Api.runJob Api.jsParseFail ⟨true, 200, "OK", "<html>oops"⟩ =
      .error { kind := .badJson, message := "Invalid JSON from server", status := 0,
               body := "<html>oops" } := by
  have h := c5_run_job_bad_json Api.jsParseFail ⟨true, 200, "OK", "<html>oops"⟩ rfl rfl
  simpa using h

/-- C6: fileUrl is a pure function (it is a plain Lean function of the
path), and for every path — spaces, slashes and non-ASCII scalar
values included — the value of the path query parameter of
fileUrl(p) is exactly encodeURIComponent of p, and percent-decoding it
with decodeURIComponent yields exactly p. -/
theorem c6_file_url_round_trip (p : List Char) :
    Uri.pathParamValue (Uri.fileUrl p) = Uri.encodeURIComponent p ∧
    Uri.decodeURIComponent (Uri.pathParamValue (Uri.fileUrl p)) = some p := by
  refine ⟨pathParam_fileUrl p, ?_⟩
  rw [pathParam_fileUrl p, decode_encode]

/-- C7 counterexample: the claim says the command preview of every
option bundle contains no flag of the non-selected engine; but a
bundle with the llm engine whose input field is the literal
"--encoder" produces a preview whose parts, and hence whose rendered
string, contain "--encoder". -/
theorem c7_counterexample :
    ({ Ui.defaultForm with input := "--encoder" } : Ui.Form).engine = "llm" ∧
    "--encoder" ∈ Ui.buildCommandPreviewParts { Ui.defaultForm with input := "--encoder" } ∧
    Ui.buildCommandPreview { Ui.defaultForm with input := "--encoder" } =
      "python smoke_test.py --input --encoder --out .\\data\\outputs\\page_0007_web " ++
      "--jsonl panels.jsonl --page-summarize --paragraph " ++
      "--ollama-text qwen2.5:7b-instruct --host http://127.0.0.1:11434" := by
  refine ⟨rfl, by decide, by rfl⟩

/-- C7 as amended: the builder itself never appends a flag of the
non-selected engine — for every bundle, a non-selected-engine flag
occurs among the preview parts only as the value of one of the free
string fields; with the llm engine none of encoder, embed-model or
mlm-refiner flags appear unless a string field equals that token, and
with any other engine neither ollama-text nor host flags appear unless
a string field equals that token. -/
theorem c7_preview_no_foreign_engine_flags (f : Ui.Form) :
    (f.engine = "llm" →
      ∀ x ∈ ["--encoder", "--embed-model", "--mlm-refiner"],
        f.input ≠ x → f.out ≠ x → f.jsonl ≠ x → f.ollama_text ≠ x → f.host ≠ x →
        x ∉ Ui.buildCommandPreviewParts f) ∧
    (f.engine ≠ "llm" →
      ∀ x ∈ ["--ollama-text", "--host"],
        f.input ≠ x → f.out ≠ x → f.jsonl ≠ x → f.embed_model ≠ x →
        x ∉ Ui.buildCommandPreviewParts f) := by
  constructor
  · intro heng x hx h1 h2 h3 h4 h5
    fin_cases hx <;>
      simp [Ui.buildCommandPreviewParts, heng, h1, h2, h3, h4, h5] <;>
      split_ifs <;> simp_all [ne_comm]
  · intro heng x hx h1 h2 h3 h4
    fin_cases hx <;>
      simp [Ui.buildCommandPreviewParts, heng, h1, h2, h3, h4] <;>
      split_ifs <;> simp_all [ne_comm]

/-- Witness for the amended C7: the default form selects the llm
engine and its preview parts contain no encoder flag. -/
theorem c7_witness :
    "--encoder" ∉ Ui.buildCommandPreviewParts Ui.defaultForm :=
  (c7_preview_no_foreign_engine_flags Ui.defaultForm).1 rfl "--encoder" (by decide)
    (by decide) (by decide) (by decide) (by decide) (by decide)

/-- C8: applying a known preset produces exactly the shallow merge of
the preset over the current form — each of the fifteen fields takes
the preset value when the preset names it and the previous value
otherwise — and an unknown key leaves the form entirely unchanged. -/
theorem c8_apply_preset_shallow_merge (presets : List (String × Ui.Preset))
    (key : String) (f : Ui.Form) :
    (∀ p, lookupKey presets key = some p →
      (Ui.applyPreset presets key f).input = p.input.getD f.input ∧
      (Ui.applyPreset presets key f).out = p.out.getD f.out ∧
      (Ui.applyPreset presets key f).jsonl = p.jsonl.getD f.jsonl ∧
      (Ui.applyPreset presets key f).host = p.host.getD f.host ∧
      (Ui.applyPreset presets key f).page_summarize = p.page_summarize.getD f.page_summarize ∧
      (Ui.applyPreset presets key f).page_style = p.page_style.getD f.page_style ∧
      (Ui.applyPreset presets key f).engine = p.engine.getD f.engine ∧
      (Ui.applyPreset presets key f).ollama_text = p.ollama_text.getD f.ollama_text ∧
      (Ui.applyPreset presets key f).embed_model = p.embed_model.getD f.embed_model ∧
      (Ui.applyPreset presets key f).mlm_refiner = p.mlm_refiner.getD f.mlm_refiner ∧
      (Ui.applyPreset presets key f).recon_verbose = p.recon_verbose.getD f.recon_verbose ∧
      (Ui.applyPreset presets key f).save_crops = p.save_crops.getD f.save_crops ∧
      (Ui.applyPreset presets key f).all_ocr = p.all_ocr.getD f.all_ocr ∧
      (Ui.applyPreset presets key f).ocr_verbose = p.ocr_verbose.getD f.ocr_verbose ∧
      (Ui.applyPreset presets key f).no_ocr = p.no_ocr.getD f.no_ocr) ∧
    (lookupKey presets key = none → Ui.applyPreset presets key f = f) := by
  constructor
  · intro p hp
    simp [Ui.applyPreset, hp, Ui.mergePreset]
  · intro hp
    simp [Ui.applyPreset, hp]

/-- Witness for C8: an unknown key leaves the default form unchanged. -/
theorem c8_witness :
    Ui.applyPreset
      [("llm_paragraph_qwen", ({ engine := some "llm", host := some "" } : Ui.Preset))]
      "unknown_key" Ui.defaultForm = Ui.defaultForm :=
  (c8_apply_preset_shallow_merge _ "unknown_key" Ui.defaultForm).2 rfl

/-- C9: the Run action is atomic with respect to the UI result state:
when runJob rejects, the displayed result and the history are exactly
as before; when it resolves, the result is stored and exactly one
history entry — the response ok field, the timestamp, the snapshot of
the submitted form and the response — is prepended, the older entries
surviving unchanged in the tail. -/
theorem c9_on_run_atomicity (s : Ui.AppState) (now : Nat)
    (outcome : Except Api.ApiErr Json) :
    (∀ e, outcome = .error e →
      (Ui.onRunUpdate s now outcome).result = s.result ∧
      (Ui.onRunUpdate s now outcome).history = s.history) ∧
    (∀ res, outcome = .ok res →
      (Ui.onRunUpdate s now outcome).result = some res ∧
      (Ui.onRunUpdate s now outcome).history =
        ⟨(res.objGet "ok").getD .null, now, s.form, res⟩ :: s.history) := by
  constructor
  · rintro e rfl
    exact ⟨rfl, rfl⟩
  · rintro res rfl
    exact ⟨rfl, rfl⟩

/-- Witness for C9: a concrete rejected run leaves an empty history
empty and a missing result missing. -/
theorem c9_witness :
    (Ui.onRunUpdate
        ⟨Ui.defaultForm, none, [], "", false⟩ 7
        (.error ⟨.http, "HTTP 500 Server Error", 500, "boom"⟩)).result = none ∧
    (Ui.onRunUpdate
        ⟨Ui.defaultForm, none, [], "", false⟩ 7
        (.error ⟨.http, "HTTP 500 Server Error", 500, "boom"⟩)).history = [] :=
  (c9_on_run_atomicity ⟨Ui.defaultForm, none, [], "", false⟩ 7
      (.error ⟨.http, "HTTP 500 Server Error", 500, "boom"⟩)).1
    ⟨.http, "HTTP 500 Server Error", 500, "boom"⟩ rfl

/-- C10: getStatus, getPresets, uploadFile and pollJob resolve a 2xx
response whose body fails to parse as JSON with the empty object
rather than rejecting, and none of the four can ever produce anything
but an http-kind error — the bad-json kind exists only in runJob. -/
theorem c10_lenient_json_endpoints (p : String → Option Json) (r : Api.HttpResp)
    (hok : r.ok = true) (hp : p r.text = none) :
    Api.getStatus p r = .ok (.obj []) ∧ Api.getPresets p r = .ok (.obj []) ∧
    Api.uploadFile p r = .ok (.obj []) ∧ Api.pollJob p r = .ok (.obj []) ∧
    (∀ r2 e, Api.getStatus p r2 = .error e ∨ Api.getPresets p r2 = .error e ∨
      Api.uploadFile p r2 = .error e ∨ Api.pollJob p r2 = .error e → e.kind = .http) := by
  refine ⟨?_, ?_, ?_, ?_, ?_⟩
  · simp [Api.getStatus, Api.readBody, hok, hp, Api.orEmptyObj, Json.isNull]
  · simp [Api.getPresets, Api.readBody, hok, hp, Api.orEmptyObj, Json.isNull]
  · simp [Api.uploadFile, Api.readBody, hok, hp, Api.orEmptyObj, Json.isNull]
  · simp [Api.pollJob, Api.readBody, hok, hp, Api.orEmptyObj, Json.isNull]
  · intro r2 e he
    rcases he with h | h | h | h <;>
    · by_cases h2 : r2.ok <;>
        simp [Api.getStatus, Api.getPresets, Api.uploadFile, Api.pollJob,
          Api.readBody, h2] at h
      rw [← h]
      rfl

/-- Witness for C10: concrete 2xx responses with a non-JSON body and
with an empty body resolve to the empty object. -/
theorem c10_witness :
    Api.getStatus Api.jsParseFail ⟨true, 200, "OK", "not json"⟩ = .ok (.obj []) ∧
    Api.pollJob Api.jsParseFail ⟨true, 200, "OK", ""⟩ = .ok (.obj []) :=
  ⟨(c10_lenient_json_endpoints Api.jsParseFail ⟨true, 200, "OK", "not json"⟩ rfl rfl).1,
   (c10_lenient_json_endpoints Api.jsParseFail ⟨true, 200, "OK", ""⟩ rfl rfl).2.2.2.1⟩
